import Mathlib

/-!
Verification of the elemental transactional deployment engine against its
specification.  Go source functions are shallowly embedded as executable Lean
definitions: Go strings are lists of characters, Go errors are `Option`
values, fallible operations return `Except`, and external effects (mounts,
subprocess calls, file writes) are recorded as explicit action traces.
-/

/-- Go strings modelled as lists of characters (ASCII data in this code base). -/
abbrev Str := List Char

/- ===================== Clean stack (pkg/cleanstack/clean_stack.go) ===================== -/

/-- The three job categories of `clean_stack.go` (`errorOnly`, `successOnly`, `always`). -/
inductive JobType where
  | errorOnly
  | successOnly
  | always
deriving DecidableEq, Repr

/-- A pushed cleanup job: its category together with the error its task returns
when executed (`none` = the Go task returns `nil`). -/
structure Job (E : Type) where
  jobType : JobType
  result : Option E
deriving DecidableEq, Repr

/-- A Go `error` value produced by joining: `none` is `nil`; `some l` is a
non-nil error whose joined components are `l` in join order. -/
abbrev GoErr (E : Type) := Option (List E)

/-- `errors.Join(errs, err)` for a non-nil `err`, as used in `runCleanJob`:
the previous error components come first, the new error is appended. -/
def joinErr {E : Type} (errs : GoErr E) (e : E) : GoErr E :=
  some (errs.getD [] ++ [e])

/-- `runCleanJob(job, errs)`: run the job; if its task returns an error, join
it onto the accumulated error. -/
def runCleanJob {E : Type} (job : Job E) (errs : GoErr E) : GoErr E :=
  match job.result with
  | none => errs
  | some e => joinErr errs e

/-- The pop loop of `CleanStack.Cleanup`, processing jobs in pop order.
Returns the final error and the list of jobs that were executed, in execution
order.  The selection of each job consults the CURRENT accumulated error, as
in the source. -/
def cleanupGo {E : Type} : List (Job E) → GoErr E → GoErr E × List (Job E)
  | [], err => (err, [])
  | job :: rest, err =>
    let selected : Bool :=
      match job.jobType with
      | .successOnly => err.isNone
      | .errorOnly => err.isSome
      | .always => true
    if selected then
      let err2 := runCleanJob job err
      let next := cleanupGo rest err2
      (next.1, job :: next.2)
    else
      cleanupGo rest err

/-- `CleanStack.Cleanup(err)`: `jobs` is the stack in PUSH order; entries are
popped (processed) in reverse push order. -/
def cleanup {E : Type} (jobs : List (Job E)) (incoming : GoErr E) :
    GoErr E × List (Job E) :=
  cleanupGo jobs.reverse incoming

/-- Concrete two-entry stack used to refute claim C2 as stated: push an
`errorOnly` job first, then an `always` job whose task fails. -/
def c2stack : List (Job Nat) := [⟨.errorOnly, none⟩, ⟨.always, some 1⟩]

/- ===================== Snapshot status diff (transaction applyCustomChanges) ===================== -/

/-- First character class of the diff regex: `[-+ct.]`. -/
def maskFirstClass (c : Char) : Bool :=
  c = '-' || c = '+' || c = 'c' || c = 't' || c = '.'

/-- A one-letter character class `[l.]` of the diff regex. -/
def maskClass (l : Char) (c : Char) : Bool :=
  c = l || c = '.'

/-- `\s` of Go's RE2: `[\t\n\f\r ]`. -/
def goSpace (c : Char) : Bool :=
  c = '\t' || c = '\n' || c = '\x0c' || c = '\r' || c = ' '

/-- Try to match `(([-+ct.])[p.][u.][g.][x.][a.])\s+(.*)` at the head of the
character list.  On success returns (group 1 = the six mask characters,
group 2 = the first mask character, group 3 = the rest after the greedy
whitespace run, up to a newline). -/
def matchStatusAt (cs : Str) : Option (Str × Char × Str) :=
  match cs with
  | c1 :: c2 :: c3 :: c4 :: c5 :: c6 :: rest =>
    if maskFirstClass c1 && maskClass 'p' c2 && maskClass 'u' c3 &&
        maskClass 'g' c4 && maskClass 'x' c5 && maskClass 'a' c6 then
      match rest with
      | r :: _ =>
        if goSpace r then
          let afterSpaces := rest.dropWhile goSpace
          some ([c1, c2, c3, c4, c5, c6], c1, afterSpaces.takeWhile (· ≠ '\n'))
        else none
      | [] => none
    else none
  | _ => none

/-- `regexp.FindStringSubmatch` for the diff regex: leftmost match over all
start positions. -/
def findStatusMatch : Str → Option (Str × Char × Str)
  | [] => none
  | c :: rest =>
    match matchStatusAt (c :: rest) with
    | some m => some m
    | none => findStatusMatch rest

/-- `strings.TrimPrefix`. -/
def trimPre (s pre : Str) : Str :=
  if pre.isPrefixOf s then s.drop pre.length else s

/-- What `applyCustomChanges` does with one scanned status line. -/
inductive LineAction where
  | noMatch
  | skipDots
  | deleteUnderNew (path : Str)
  | sync (path : Str)
deriving DecidableEq, Repr

/-- The per-line dispatch of `applyCustomChanges` (second copy of the
transaction sources, lines 607-634): no regex match → the line is ignored;
`match[1] == "...."` → skip; `match[2] == "-"` → remove the file under the
merge's new path; otherwise append the path, stripped of the volume prefix,
to the sync list. -/
def applyCustomChangesLine (line rwVolPath mergeNew : Str) : LineAction :=
  match findStatusMatch line with
  | none => .noMatch
  | some (mask, first, path) =>
    if mask = "....".toList then .skipDots
    else if first = '-' then .deleteUnderNew (mergeNew ++ '/' :: path)
    else .sync (trimPre path rwVolPath)

/- ===================== Grub boot entries (pkg/bootloader/grub.go updateBootEntries) ===================== -/

/-- Split a character list at every occurrence of the given character
(Go `strings.SplitSeq(s, "\n")` for a one-character separator). -/
def splitOnChar (sep : Char) (cs : Str) : List Str :=
  match cs with
  | [] => [[]]
  | c :: rest =>
    let tail := splitOnChar sep rest
    if c = sep then [] :: tail
    else
      match tail with
      | t :: ts => (c :: t) :: ts
      | [] => [[c]]

/-- `strings.Fields`: split around runs of white space, dropping empties. -/
def goFields (cs : Str) : List Str :=
  (splitOnChar ' ' ((cs.map (fun c => if goSpace c then ' ' else c)))).filter (· ≠ [])

/-- `strings.CutPrefix`. -/
def cutPre (s pre : Str) : Option Str :=
  if pre.isPrefixOf s then some (s.drop pre.length) else none

/-- `strings.Join(l, " ")`. -/
def joinSpace : List Str → Str
  | [] => []
  | [x] => x
  | x :: y :: rest => x ++ ' ' :: joinSpace (y :: rest)

/-- The grub default boot entry id `active`. -/
def defaultBootID : Str := "active".toList

/-- The entry-collection loop of `updateBootEntries`: every line of the
existing grubenv whose text starts with `entries=active` contributes its
remaining white-space separated fields. -/
def readActiveEntries (content : Str) : List Str :=
  (splitOnChar '\n' content).foldl
    (fun acc line =>
      match cutPre line ("entries=".toList ++ defaultBootID) with
      | some after => acc ++ goFields after
      | none => acc)
    []

/-- `updateBootEntries` restricted to its effect on the `entries` variable:
read the current entries from the previous grubenv content (if any), append
the ids of the non-default new entries (Install passes entries with ids
`active` and the snapshot id), reverse, prepend `active`, and join. -/
def updateBootEntriesVar (prev : Option Str) (snapshotID : Str) : Str :=
  let activeEntries :=
    match prev with
    | some content => readActiveEntries content
    | none => []
  let activeEntries :=
    [defaultBootID, snapshotID].foldl
      (fun acc id => if id = defaultBootID then acc else acc ++ [id]) activeEntries
  let activeEntries := defaultBootID :: activeEntries.reverse
  "entries=".toList ++ joinSpace activeEntries

/-- The grubenv `entries` value after `n` successive installs for snapshot ids
drawn in order from `ids`, each run reading the grubenv written by the
previous run. -/
def grubenvAfterInstalls : List Str → Option Str
  | [] => none
  | ids₀ :: rest =>
    match grubenvAfterInstalls rest with
    | prev => some (updateBootEntriesVar prev ids₀)

/- ===================== Deployment data model (pkg/deployment) ===================== -/

/-- Partition roles. -/
inductive PartRole where
  | efi
  | system
  | recovery
  | data
deriving DecidableEq, Repr

/-- A read-write Btrfs subvolume of a partition. -/
structure RWVolume where
  Path : Str
  MountOpts : List Str
  Snapshotted : Bool
deriving DecidableEq, Repr

/-- A partition, restricted to the fields the transaction helper reads.
`FileSystem` carries the result of `part.FileSystem.String()`. -/
structure Partition where
  Role : PartRole
  Label : Str
  MountPoint : Str
  MountOpts : List Str
  UUID : Str
  FileSystem : Str
  RWVolumes : List RWVolume
deriving DecidableEq, Repr

/-- `filepath.Join` for the already-clean absolute/relative path fragments this
code base produces (no `.`/`..` segments): drop leading slashes of the second
argument and glue with a single slash. -/
def goJoin (a b : Str) : Str :=
  let b := b.dropWhile (· = '/')
  if a = [] then b
  else if a.getLast? = some '/' then a ++ b
  else a ++ '/' :: b

/-- Modelled from the spec: `snapper.SnapshotsPath` lives in the snapper
package, which is not among the provided sources; per the spec snapshots sit
under `/.snapshots` and `<vol>/.snapshots`. -/
def snapshotsPath : Str := ".snapshots".toList

/-- Modelled from the spec: `btrfs.TopSubVol` lives in the btrfs package,
which is not among the provided sources; per the spec the Btrfs top subvolume
is `@/`. -/
def topSubVol : Str := "@".toList

/-- Decimal representation of a natural number, as Go's `%d`. -/
def natStr (n : Nat) : Str := (Nat.repr n).toList

/-- Modelled from the spec: `snapshotPathTmpl` is defined outside the provided
transaction sources; per the spec (and `GenerateKernelCmdline`) a snapshot
lives at `.snapshots/<id>/snapshot`. -/
def snapshotPath (id : Nat) : Str :=
  ".snapshots/".toList ++ natStr id ++ "/snapshot".toList

/- ===================== Sync excludes (transaction syncSnapshotExcludes, lines 437-467) ===================== -/

/-- `syncSnapshotExcludes(fullSync)`: excluded directories for the image
source sync, translated from the source loop. -/
def syncSnapshotExcludes (partitions : List Partition) (fullSync : Bool) : List Str :=
  partitions.foldl
    (fun excludes part =>
      let excludes :=
        if fullSync = false ∧ part.Role ≠ .system ∧ part.MountPoint ≠ [] then
          excludes ++ [part.MountPoint]
        else excludes
      part.RWVolumes.foldl
        (fun ex vol =>
          if vol.Snapshotted then ex ++ [goJoin vol.Path snapshotsPath]
          else if fullSync = false then ex ++ [vol.Path]
          else ex)
        excludes)
    [goJoin ['/'] snapshotsPath]

/-- `syncSnapshotDeleteExcludes()`: protected paths at the sync destination,
translated from the source loop. -/
def syncSnapshotDeleteExcludes (partitions : List Partition) : List Str :=
  partitions.foldl
    (fun excludes part =>
      let excludes :=
        if part.Role ≠ .system ∧ part.MountPoint ≠ [] then
          excludes ++ [part.MountPoint]
        else excludes
      part.RWVolumes.foldl (fun ex vol => ex ++ [vol.Path]) excludes)
    [goJoin ['/'] snapshotsPath]

/- ===================== fstab creation (transaction createFstab, lines 704-755) ===================== -/

/-- An `fstab.Line` as used by `createFstab` (the fstab package is external;
field set taken from its uses in the transaction sources). -/
structure FstabLine where
  Device : Str := []
  MountPoint : Str := []
  Options : List Str := []
  FileSystem : Str := []
  FsckOrder : Nat := 0
deriving DecidableEq, Repr

/-- `createFstab`, translated from the source loop: one line per partition
with a mount point, one line per RW volume, one `.snapshots` line per system
partition. -/
def createFstab (partitions : List Partition) (txID : Nat) : List FstabLine :=
  partitions.foldl
    (fun fstabLines part =>
      let fstabLines :=
        if part.MountPoint ≠ [] then
          let opts := part.MountOpts
          let opts := if part.Role = .system then "ro".toList :: opts else opts
          let fsck : Nat := if part.Role = .system then 1 else 2
          let opts := if opts = [] then ["defaults".toList] else opts
          fstabLines ++ [{ Device := "UUID=".toList ++ part.UUID,
                           MountPoint := part.MountPoint,
                           Options := opts,
                           FileSystem := part.FileSystem,
                           FsckOrder := fsck }]
        else fstabLines
      let fstabLines := part.RWVolumes.foldl
        (fun ls vol =>
          let subVol :=
            if vol.Snapshotted then goJoin (goJoin topSubVol (snapshotPath txID)) vol.Path
            else goJoin topSubVol vol.Path
          ls ++ [{ Device := "UUID=".toList ++ part.UUID,
                   MountPoint := vol.Path,
                   Options := vol.MountOpts ++ ["subvol=".toList ++ subVol],
                   FileSystem := part.FileSystem }])
        fstabLines
      if part.Role = .system then
        fstabLines ++ [{ Device := "UUID=".toList ++ part.UUID,
                         MountPoint := goJoin ['/'] snapshotsPath,
                         Options := ["subvol=".toList ++ goJoin topSubVol snapshotsPath],
                         FileSystem := part.FileSystem }]
      else fstabLines)
    []

/-- The partition-mount line of the claim: device by UUID, `ro` first and fsck
order 1 for the system partition, fsck order 2 otherwise, empty option lists
collapsing to `defaults`. -/
def claimPartitionLine (part : Partition) : FstabLine :=
  { Device := "UUID=".toList ++ part.UUID,
    MountPoint := part.MountPoint,
    Options :=
      if part.Role = .system then "ro".toList :: part.MountOpts
      else if part.MountOpts = [] then ["defaults".toList]
      else part.MountOpts,
    FileSystem := part.FileSystem,
    FsckOrder := if part.Role = .system then 1 else 2 }

/-- The RW-volume line of the claim: mountpoint is the volume path and the
last option selects `@/.snapshots/<n>/snapshot/<vol>` when snapshotted,
`@/<vol>` otherwise. -/
def claimVolumeLine (part : Partition) (txID : Nat) (vol : RWVolume) : FstabLine :=
  { Device := "UUID=".toList ++ part.UUID,
    MountPoint := vol.Path,
    Options := vol.MountOpts ++
      [ "subvol=".toList ++
          (if vol.Snapshotted then goJoin (goJoin topSubVol (snapshotPath txID)) vol.Path
           else goJoin topSubVol vol.Path) ],
    FileSystem := part.FileSystem }

/-- The `.snapshots` line of the claim for the system partition. -/
def claimSnapshotsLine (part : Partition) : FstabLine :=
  { Device := "UUID=".toList ++ part.UUID,
    MountPoint := goJoin ['/'] snapshotsPath,
    Options := ["subvol=".toList ++ goJoin topSubVol snapshotsPath],
    FileSystem := part.FileSystem }

/-- The fstab contents as described by claim C6, per partition. -/
def claimFstab (partitions : List Partition) (txID : Nat) : List FstabLine :=
  partitions.flatMap fun part =>
    (if part.MountPoint ≠ [] then [claimPartitionLine part] else []) ++
    part.RWVolumes.map (claimVolumeLine part txID) ++
    (if part.Role = .system then [claimSnapshotsLine part] else [])

/- ===================== Upgrade helper operations (transaction, lines 351-427) ===================== -/

/-- Transaction states. -/
inductive TxStatus where
  | init
  | started
  | committed
  | rolledBack
deriving DecidableEq, Repr

/-- The transaction record, restricted to the fields the helper operations read. -/
structure Transaction where
  ID : Nat
  Path : Str
  status : TxStatus
deriving DecidableEq, Repr

/-- Errors returned by the helper operations: the transaction-state error
(`"transaction '%d' is not started"`), the context-cancellation error, or a
body failure wrapped with a context message. -/
inductive TxErr where
  | txState (id : Nat)
  | cancelled
  | wrap (ctx : Str)
deriving DecidableEq, Repr

/-- Externally visible effects of the helper operations. -/
inductive HelperAction where
  | unpack (dest : Str) (excludes deleteExcludes : List Str)
  | configureSnapperCall
  | mergeVolumesCall
  | writeFstab (file : Str) (lines : List FstabLine)
  | updateFstabFile (file : Str)
  | setPermissions (path : Str) (id : Nat) (flag : Bool)
deriving DecidableEq, Repr

/-- Outcomes of the external collaborators invoked by the helper bodies
(`none` = the call succeeds). -/
structure HelperEnv where
  ctxCancelled : Bool
  newUnpackerErr : Option Str
  unpackErr : Option Str
  configureSnapperErr : Option Str
  mergeErr : Option Str
  fstabExists : Bool
  updateFstabErr : Option Str
  writeFstabErr : Option Str
  setPermissionsErr : Option Str

/-- Modelled from the spec: `checkCancelled` is defined outside the provided
transaction sources; per the spec, cancellation of the engine's context makes
the current operation return the cancellation error (applied by `defer` to
every helper's result). -/
def checkCancelled (env : HelperEnv) (e : Except TxErr Unit) : Except TxErr Unit :=
  if env.ctxCancelled then .error .cancelled else e

/-- `fstab.File` relative to the transaction path (`<tx.path>/etc/fstab` per
the spec; the fstab package is not among the provided sources). -/
def fstabFile (trans : Transaction) : Str := trans.Path ++ "/etc/fstab".toList

/-- `SyncImageContent(imgSrc, trans)`: state guard, unpacker construction,
synched unpack with the two exclude lists.  Result plus performed effects. -/
def SyncImageContent (env : HelperEnv) (partitions : List Partition)
    (trans : Transaction) : Except TxErr Unit × List HelperAction :=
  if trans.status ≠ .started then
    (checkCancelled env (.error (.txState trans.ID)), [])
  else
    match env.newUnpackerErr with
    | some _ => (checkCancelled env (.error (.wrap "initializing unpacker".toList)), [])
    | none =>
      let act := HelperAction.unpack trans.Path
        (syncSnapshotExcludes partitions (trans.ID == 1))
        (syncSnapshotDeleteExcludes partitions)
      match env.unpackErr with
      | some _ =>
        (checkCancelled env (.error (.wrap ("unpacking image to ".toList ++ trans.Path))), [act])
      | none => (checkCancelled env (.ok ()), [act])

/-- `Merge(trans)`: state guard, snapper configuration, three-way merge. -/
def MergeOp (env : HelperEnv) (trans : Transaction) :
    Except TxErr Unit × List HelperAction :=
  if trans.status ≠ .started then
    (checkCancelled env (.error (.txState trans.ID)), [])
  else
    match env.configureSnapperErr with
    | some _ =>
      (checkCancelled env (.error (.wrap "configuring snapper".toList)), [.configureSnapperCall])
    | none =>
      match env.mergeErr with
      | some _ =>
        (checkCancelled env (.error (.wrap "merging content of snapshotted rw volumes".toList)),
          [.configureSnapperCall, .mergeVolumesCall])
      | none => (checkCancelled env (.ok ()), [.configureSnapperCall, .mergeVolumesCall])

/-- `UpdateFstab(trans)`: state guard, then update an existing fstab or create
a fresh one from `createFstab`. -/
def UpdateFstab (env : HelperEnv) (partitions : List Partition)
    (trans : Transaction) : Except TxErr Unit × List HelperAction :=
  if trans.status ≠ .started then
    (checkCancelled env (.error (.txState trans.ID)), [])
  else if env.fstabExists then
    match env.updateFstabErr with
    | some _ =>
      (checkCancelled env (.error (.wrap "updating fstab".toList)), [.updateFstabFile (fstabFile trans)])
    | none => (checkCancelled env (.ok ()), [.updateFstabFile (fstabFile trans)])
  else
    let act := HelperAction.writeFstab (fstabFile trans) (createFstab partitions trans.ID)
    match env.writeFstabErr with
    | some _ => (checkCancelled env (.error (.wrap "creating fstab".toList)), [act])
    | none => (checkCancelled env (.ok ()), [act])

/-- `Lock(trans)`: state guard, then `snap.SetPermissions(trans.Path, trans.ID, false)`. -/
def Lock (env : HelperEnv) (trans : Transaction) :
    Except TxErr Unit × List HelperAction :=
  if trans.status ≠ .started then
    (checkCancelled env (.error (.txState trans.ID)), [])
  else
    let act := HelperAction.setPermissions trans.Path trans.ID false
    match env.setPermissionsErr with
    | some _ =>
      (checkCancelled env (.error (.wrap "configuring new snapshot as read-only".toList)), [act])
    | none => (checkCancelled env (.ok ()), [act])

/- ===================== mkfs option building (pkg/diskrepart/mkfs.go buildOptions) ===================== -/

/-- Substring containment, as Go's unanchored regexp literal search. -/
def hasSub (pat : Str) : Str → Bool
  | [] => pat.isPrefixOf []
  | c :: rest => pat.isPrefixOf (c :: rest) || hasSub pat rest

/-- Matches of the regex fragment `ext[2-4]` anywhere in the string. -/
def hasExt24 : Str → Bool
  | [] => false
  | c :: rest =>
    ("ext".toList.isPrefixOf (c :: rest) &&
      (match (c :: rest).drop 3 with
       | d :: _ => d = '2' || d = '3' || d = '4'
       | [] => false)) || hasExt24 rest

/-- `regexp.MatchString("ext[2-4]|xfs|btrfs", fs)`. -/
def linuxFSMatch (fs : Str) : Bool :=
  hasExt24 fs || hasSub "xfs".toList fs || hasSub "btrfs".toList fs

/-- `regexp.MatchString("fat|vfat", fs)`. -/
def fatFSMatch (fs : Str) : Bool :=
  hasSub "fat".toList fs || hasSub "vfat".toList fs

/-- ASCII hexadecimal digit. -/
def isHexDigit (c : Char) : Bool :=
  ('0' ≤ c && c ≤ '9') || ('a' ≤ c && c ≤ 'f') || ('A' ≤ c && c ≤ 'F')

/-- The canonical `xxxxxxxx-xxxx-xxxx-xxxx-xxxxxxxxxxxx` shape: 36 characters
with hyphens at offsets 8, 13, 18, 23 and hex digits elsewhere. -/
def canonicalUUID (cs : Str) : Bool :=
  cs.length = 36 &&
  (cs.enum.all fun p =>
    if p.1 = 8 ∨ p.1 = 13 ∨ p.1 = 18 ∨ p.1 = 23 then p.2 = '-' else isHexDigit p.2)

/-- ASCII lower-casing, for `strings.EqualFold` on the `urn:uuid:` prefix. -/
def toLowerCh (c : Char) : Char :=
  if 'A' ≤ c ∧ c ≤ 'Z' then Char.ofNat (c.toNat + 32) else c

/-- Acceptance of `github.com/google/uuid.Parse`: canonical form, the
`urn:uuid:` prefixed form, the brace-wrapped form (whose trailing character is
never inspected), and the 32-digit plain hex form. -/
def uuidParseOk (cs : Str) : Bool :=
  if cs.length = 36 then canonicalUUID cs
  else if cs.length = 45 then
    ((cs.take 9).map toLowerCh = "urn:uuid:".toList) && canonicalUUID (cs.drop 9)
  else if cs.length = 38 then canonicalUUID ((cs.drop 1).take 36)
  else if cs.length = 32 then cs.all isHexDigit
  else false

/-- `MkfsCall.buildOptions` (first copy of mkfs.go, lines 48-100): validate a
provided UUID, then build the argument list by filesystem family. -/
def buildOptions (fileSystem label uuid : Str) (customOpts : List Str) (dev : Str) :
    Except Str (List Str) :=
  let linuxFS := linuxFSMatch fileSystem
  let fatFS := fatFSMatch fileSystem
  if uuid ≠ [] ∧ uuidParseOk uuid = false then
    .error ("provided UUID is not valid: ".toList ++ uuid)
  else if linuxFS then
    let opts := if label ≠ [] then ["-L".toList, label] else []
    let opts := opts ++
      (if uuid ≠ [] then
        (if fileSystem = "xfs".toList then ["-m".toList, "uuid=".toList ++ uuid]
         else ["-U".toList, uuid])
       else [])
    let opts := opts ++ customOpts
    let opts := opts ++ (if fileSystem = "btrfs".toList then ["-f".toList] else [])
    .ok (opts ++ [dev])
  else if fatFS then
    let opts := if label ≠ [] then ["-n".toList, label] else []
    let opts := opts ++
      (if uuid ≠ [] then ["-i".toList, uuid.takeWhile (· ≠ '-')] else [])
    let opts := opts ++ customOpts
    .ok (opts ++ [dev])
  else
    .error ("unsupported filesystem: ".toList ++ fileSystem)

/-- The filesystems admitted by the deployment model
(`{btrfs, xfs, ext2, ext4, vfat}`). -/
def supportedFilesystems : List Str :=
  ["btrfs".toList, "xfs".toList, "ext2".toList, "ext4".toList, "vfat".toList]

/-- The mkfs argument list of the amended claim C8, per supported filesystem:
`-L`/`-n` for the label, `-U` for ext*/btrfs but `-m uuid=` for xfs and
`-i <first hyphen group>` for FAT, `-f` exactly for btrfs, device last. -/
def claimMkfsOpts (fileSystem label uuid : Str) (customOpts : List Str) (dev : Str) :
    List Str :=
  if fileSystem = "vfat".toList then
    ["-n".toList, label, "-i".toList, uuid.takeWhile (· ≠ '-')] ++ customOpts ++ [dev]
  else if fileSystem = "xfs".toList then
    ["-L".toList, label, "-m".toList, "uuid=".toList ++ uuid] ++ customOpts ++ [dev]
  else if fileSystem = "btrfs".toList then
    ["-L".toList, label, "-U".toList, uuid] ++ customOpts ++ ["-f".toList, dev]
  else
    ["-L".toList, label, "-U".toList, uuid] ++ customOpts ++ [dev]

/- ===================== Chroot mounts (pkg/chroot/chroot.go Prepare/Close) ===================== -/

/-- The chroot bookkeeping state: target path, default binds, extra binds
(external key → internal path) and the active mount list in mount order. -/
structure ChrootState where
  path : Str
  defaultMounts : List Str
  extraMounts : List (Str × Str)
  activeMounts : List Str
deriving DecidableEq, Repr

/-- Which external calls fail, keyed by the affected mount point. -/
structure MountEnv where
  mkdirFails : Str → Bool
  mountFails : Str → Bool
  unmountFails : Str → Bool

/-- The mounter/runner effects of `Prepare` and `Close`. -/
inductive MountAction where
  | mkdirAll (p : Str)
  | mount (src tgt : Str)
  | unmount (tgt : Str)
  | syncCall
deriving DecidableEq, Repr

/-- Errors of `Prepare`/`Close`. -/
inductive ChrootErr where
  | alreadyActive
  | mkdirErr (p : Str)
  | mountErr (tgt : Str)
  | unmountFailures (l : List Str)
deriving DecidableEq, Repr

/-- `strings.TrimSuffix(path, "/")`. -/
def trimSuffixSlash (p : Str) : Str :=
  if p.getLast? = some '/' then p.dropLast else p

/-- Lexicographic character-list order, as `sort.Strings` on ASCII data. -/
def lexLt : Str → Str → Bool
  | [], [] => false
  | [], _ :: _ => true
  | _ :: _, [] => false
  | a :: as, b :: bs => a < b || (a = b && lexLt as bs)

/-- Insertion into a list sorted by `lexLt` on the key. -/
def insertByKey (x : Str × Str) : List (Str × Str) → List (Str × Str)
  | [] => [x]
  | y :: ys => if lexLt x.1 y.1 then x :: y :: ys else y :: insertByKey x ys

/-- `sort.Strings` over the extra-mount keys (insertion sort, stable). -/
def sortByKey (l : List (Str × Str)) : List (Str × Str) :=
  l.foldr insertByKey []

/-- The (source, mount point) pairs `Prepare` processes, in order: the default
binds first, then the extra binds sorted by external key. -/
def prepareEntries (st : ChrootState) : List (Str × Str) :=
  let t := trimSuffixSlash st.path
  st.defaultMounts.map (fun m => (m, t ++ m)) ++
    (sortByKey st.extraMounts).map (fun kv => (kv.1, t ++ kv.2))

/-- The unmount loop of `Close`, over the active mounts in pop order: each is
unmounted; mount points whose unmount fails are collected in pop order. -/
def closeLoop (env : MountEnv) : List Str → List Str × List MountAction
  | [] => ([], [])
  | m :: rest =>
    let next := closeLoop env rest
    if env.unmountFails m then (m :: next.1, .unmount m :: next.2)
    else (next.1, .unmount m :: next.2)

/-- `Chroot.Close`: sync, unmount all active mounts in reverse mount order,
retain exactly the failing mount points as the new active list, and report
them in the error. -/
def closeC (st : ChrootState) (env : MountEnv) :
    Option ChrootErr × ChrootState × List MountAction :=
  let res := closeLoop env st.activeMounts.reverse
  (if res.1 = [] then none else some (.unmountFailures res.1),
    { st with activeMounts := res.1 },
    .syncCall :: res.2)

/-- The mount loop of `Prepare`: make the mount-point directory, bind mount,
extend the active list; stop at the first failure. -/
def prepareLoop (env : MountEnv) :
    List (Str × Str) → List Str → Option ChrootErr × List Str × List MountAction
  | [], active => (none, active, [])
  | (src, mp) :: rest, active =>
    if env.mkdirFails mp then (some (.mkdirErr mp), active, [.mkdirAll mp])
    else if env.mountFails mp then (some (.mountErr mp), active, [.mkdirAll mp])
    else
      let next := prepareLoop env rest (active ++ [mp])
      (next.1, next.2.1, .mkdirAll mp :: .mount src mp :: next.2.2)

/-- `Chroot.Prepare`: refuse when mounts are already active; mount defaults
then sorted extras; on failure the deferred `Close` unmounts everything
mounted so far (its own error is discarded). -/
def prepareC (st : ChrootState) (env : MountEnv) :
    Option ChrootErr × ChrootState × List MountAction :=
  if st.activeMounts ≠ [] then (some .alreadyActive, st, [])
  else
    match prepareLoop env (prepareEntries st) [] with
    | (none, active, acts) => (none, { st with activeMounts := active }, acts)
    | (some e, active, acts) =>
      let c := closeC { st with activeMounts := active } env
      (some e, c.2.1, acts ++ c.2.2)

/-- The targets of the mount actions of a trace, in order. -/
def mountTargets (acts : List MountAction) : List Str :=
  acts.filterMap fun a =>
    match a with
    | .mount _ tgt => some tgt
    | _ => none

/-- The targets of the unmount actions of a trace, in order. -/
def unmountTargets (acts : List MountAction) : List Str :=
  acts.filterMap fun a =>
    match a with
    | .unmount tgt => some tgt
    | _ => none

/- ===================== Deployment merge (pkg/deployment merge transformer) ===================== -/

/-- Association-list model of the Go `map[string]*E` `keyedSources`:
insertion keeps the original position on overwrite (Go maps do not expose an
order; iteration order in Go is unspecified, so theorems below do not depend
on the relative order of several remaining keys). -/
def mapInsert {E : Type} (m : List (Str × E)) (k : Str) (v : E) : List (Str × E) :=
  if m.any (fun p => p.1 = k) then
    m.map (fun p => if p.1 = k then (k, v) else p)
  else m ++ [(k, v)]

/-- Deletion from the association-list map. -/
def mapDelete {E : Type} (m : List (Str × E)) (k : Str) : List (Str × E) :=
  m.filter (fun p => p.1 ≠ k)

/-- Lookup in the association-list map. -/
def mapGet {E : Type} (m : List (Str × E)) (k : Str) : Option E :=
  (m.find? (fun p => p.1 = k)).map (·.2)

/-- First loop of `mergePtrSliceByKey` over `srcSlice`: nil entries are
skipped, keyed entries go into `keyedSources` (last wins), unkeyed entries go
into `final`. -/
def srcPass {E : Type} (key : E → Str) (src : List (Option E)) :
    List (Option E) × List (Str × E) :=
  src.foldl
    (fun acc entry =>
      match entry with
      | none => acc
      | some e =>
        if key e = [] then (acc.1 ++ [some e], acc.2)
        else (acc.1, mapInsert acc.2 (key e) e))
    ([], [])

/-- Second loop of `mergePtrSliceByKey` over `destSlice`: nil entries are
skipped; keyed entries with a pending source of the same key are merged (and
the source consumed); all surviving dest entries keep their order. -/
def destPass {E : Type} (key : E → Str) (mrg : E → E → E) :
    List (Option E) → List (Str × E) → List (Option E) × List (Str × E)
  | [], m => ([], m)
  | none :: rest, m => destPass key mrg rest m
  | some e :: rest, m =>
    if key e = [] then
      let next := destPass key mrg rest m
      (some e :: next.1, next.2)
    else
      match mapGet m (key e) with
      | some srcE =>
        let next := destPass key mrg rest (mapDelete m (key e))
        (some (mrg e srcE) :: next.1, next.2)
      | none =>
        let next := destPass key mrg rest m
        (some e :: next.1, next.2)

/-- `mergePtrSliceByKey(destSlice, srcSlice, t, key)`: unkeyed source entries
first, then the keyed source entries left unmatched, then the processed dest
entries. -/
def mergePtrSliceByKey {E : Type} (dst src : List (Option E)) (key : E → Str)
    (mrg : E → E → E) : List (Option E) :=
  let pass1 := srcPass key src
  let pass2 := destPass key mrg dst pass1.2
  pass1.1 ++ pass2.2.map (fun p => some p.2) ++ pass2.1

/-- The body of the `for i := range destSize` loop of `mergePtrSliceIndex`:
`srcSlice[i]` is read for every dest index, so a source shorter than the dest
runs off its end (`none` result = runtime panic `index out of range`). -/
def idxLoop {E : Type} (mrg : E → E → E) :
    List (Option E) → List (Option E) → Option (List (Option E))
  | [], srcRest => some (srcRest.filter (·.isSome))
  | _ :: _, [] => none
  | d :: ds, s :: ss =>
    match idxLoop mrg ds ss with
    | none => none
    | some tail =>
      match s, d with
      | none, _ => some tail
      | some sv, none => some (some sv :: tail)
      | some sv, some dv => some (some (mrg dv sv) :: tail)

/-- `mergePtrSliceIndex(destSlice, srcSlice, t)`: with an empty source the
dest is copied; otherwise the index loop merges element-wise and appends the
non-nil source surplus. -/
def mergePtrSliceIndex {E : Type} (dst src : List (Option E)) (mrg : E → E → E) :
    Option (List (Option E)) :=
  match src with
  | [] => some dst
  | _ :: _ => idxLoop mrg dst src

/-- The partition fields of the merge example of claim C1. -/
structure PartitionLite where
  Label : Str
  SizeMiB : Nat
deriving DecidableEq, Repr

/-- `mergo.Merge(dst, src, WithOverride)` on the example partitions: non-zero
source fields override. -/
def mergePartitionLite (d s : PartitionLite) : PartitionLite :=
  { Label := if s.Label ≠ [] then s.Label else d.Label,
    SizeMiB := if s.SizeMiB ≠ 0 then s.SizeMiB else d.SizeMiB }

/-- The dst partitions of claim C1's example: `[EFI, SYSTEM(size=1G)]`. -/
def c1dst : List (Option PartitionLite) :=
  [some ⟨"EFI".toList, 0⟩, some ⟨"SYSTEM".toList, 1024⟩]

/-- The src partitions of claim C1's example: `[SYSTEM(size=4G), NEW(size=2G)]`. -/
def c1src : List (Option PartitionLite) :=
  [some ⟨"SYSTEM".toList, 4096⟩, some ⟨"NEW".toList, 2048⟩]

/-- The disk fields of the index-merge witness of claim C10. -/
structure DiskLite where
  Device : Str
deriving DecidableEq, Repr

/-- `mergo.Merge` on the witness disks: non-zero source fields override. -/
def mergeDiskLite (d s : DiskLite) : DiskLite :=
  { Device := if s.Device ≠ [] then s.Device else d.Device }

/-- A helper environment in which every external collaborator succeeds and
the context is not cancelled. -/
def helperEnvOk : HelperEnv :=
  { ctxCancelled := false
    newUnpackerErr := none
    unpackErr := none
    configureSnapperErr := none
    mergeErr := none
    fstabExists := false
    updateFstabErr := none
    writeFstabErr := none
    setPermissionsErr := none }

/-- A mount environment in which every mkdir, mount and unmount succeeds. -/
def mountEnvOk : MountEnv :=
  { mkdirFails := fun _ => false
    mountFails := fun _ => false
    unmountFails := fun _ => false }

/-- A fresh chroot instance for `/some/root`, as built by `NewChroot`. -/
def chrootFresh : ChrootState :=
  { path := "/some/root".toList
    defaultMounts := ["/dev".toList, "/dev/pts".toList, "/proc".toList, "/sys".toList]
    extraMounts := []
    activeMounts := [] }

/- ===================== Theorems ===================== -/

theorem cleanupGo_some {E : Type} (js : List (Job E)) (l : List E) :
    cleanupGo js (some l) =
      (some (l ++ (js.filter (fun j => j.jobType ≠ .successOnly)).filterMap (fun j => j.result)),
        js.filter (fun j => j.jobType ≠ .successOnly)) := by
  induction js generalizing l with
  | nil => simp [cleanupGo]
  | cons j rest ih =>
    cases hjt : j.jobType <;> cases hr : j.result <;>
      simp [cleanupGo, hjt, hr, runCleanJob, joinErr, ih, List.filter_cons]

theorem cleanupGo_none {E : Type} (js : List (Job E)) (h : ∀ j ∈ js, j.result = none) :
    cleanupGo js none = (none, js.filter (fun j => j.jobType ≠ .errorOnly)) := by
  induction js with
  | nil => simp [cleanupGo]
  | cons j rest ih =>
    have hj : j.result = none := h j (List.mem_cons_self j rest)
    have hrest : ∀ x ∈ rest, x.result = none := fun x hx => h x (List.mem_cons_of_mem j hx)
    cases hjt : j.jobType <;>
      simp [cleanupGo, hjt, hj, runCleanJob, ih hrest, List.filter_cons]

/-- C2 (amended): `Cleanup` pops every entry in reverse push order, but task
selection consults the ACCUMULATED error.  With a non-nil incoming error every
`on_error` and `always` task runs exactly once, no `on_success` task runs, and
the returned error is the incoming error followed by the cleanup errors in run
order.  With a nil incoming error the dual holds PROVIDED no cleanup task
itself fails. -/
theorem cleanStack_cleanup_amended {E : Type} (jobs : List (Job E)) (incoming : GoErr E) :
    (∀ l, incoming = some l →
      cleanup jobs incoming =
        (some (l ++ (jobs.reverse.filter (fun j => j.jobType ≠ .successOnly)).filterMap
            (fun j => j.result)),
          jobs.reverse.filter (fun j => j.jobType ≠ .successOnly)))
    ∧ (incoming = none → (∀ j ∈ jobs, j.result = none) →
      cleanup jobs incoming = (none, jobs.reverse.filter (fun j => j.jobType ≠ .errorOnly))) := by
  constructor
  · intro l hl
    subst hl
    exact cleanupGo_some jobs.reverse l
  · intro hl hall
    subst hl
    exact cleanupGo_none jobs.reverse (fun j hj => hall j (List.mem_reverse.mp hj))

/-- Witness for C2's amended theorem at a concrete one-job stack and a
concrete non-nil incoming error. -/
theorem cleanStack_cleanup_amended_witness :
    cleanup ([⟨.always, some 2⟩] : List (Job Nat)) (some [0]) =
      (some ([0] ++ (([⟨.always, some 2⟩] : List (Job Nat)).reverse.filter
          (fun j => j.jobType ≠ .successOnly)).filterMap (fun j => j.result)),
        ([⟨.always, some 2⟩] : List (Job Nat)).reverse.filter (fun j => j.jobType ≠ .successOnly)) :=
  (cleanStack_cleanup_amended _ _).1 [0] rfl

/-- C2 counterexample: with a nil incoming error, the stack that pushes an
`on_error` task and then an `always` task whose cleanup fails DOES run the
`on_error` task (the `always` failure flips the accumulated error), refuting
"when incoming_error is nil ... no on_error task runs". -/
theorem cleanStack_counterexample :
    (cleanup c2stack none).2 = [⟨.always, some 1⟩, ⟨.errorOnly, none⟩] ∧
    (cleanup c2stack none).2.filter (fun j => j.jobType = .errorOnly) ≠ [] ∧
    (cleanup c2stack none).1 = some [1] := by decide

theorem matchStatusAt_mask_len {cs : Str} {m : Str × Char × Str}
    (h : matchStatusAt cs = some m) : m.1.length = 6 := by
  unfold matchStatusAt at h
  split at h
  · split at h
    · split at h
      · split at h
        · obtain ⟨rfl⟩ := Option.some.inj h
          rfl
        · exact absurd h (by simp)
      · exact absurd h (by simp)
    · exact absurd h (by simp)
  · exact absurd h (by simp)

theorem findStatusMatch_mask_len {cs : Str} {m : Str × Char × Str}
    (h : findStatusMatch cs = some m) : m.1.length = 6 := by
  induction cs with
  | nil => simp [findStatusMatch] at h
  | cons c rest ih =>
    unfold findStatusMatch at h
    cases hm : matchStatusAt (c :: rest) with
    | some m2 =>
      rw [hm] at h
      obtain ⟨rfl⟩ := Option.some.inj h
      exact matchStatusAt_mask_len hm
    | none =>
      rw [hm] at h
      exact ih h

/-- C3 (code bug): the "skip extended-attribute-only changes" branch of
`applyCustomChanges` is unreachable — the regex mask group is always six
characters while the comparison tests it against the four-character string
`....` — so a line whose whole action mask is dots is NOT skipped: it is
appended to the sync list, as evaluated on the concrete status line
`...... /etc/hosts` for the volume `/etc`. -/
theorem applyCustomChanges_skip_branch_dead :
    (∀ line rwVolPath mergeNew, applyCustomChangesLine line rwVolPath mergeNew ≠ .skipDots)
    ∧ applyCustomChangesLine "...... /etc/hosts".toList "/etc".toList "/new".toList =
        .sync "/hosts".toList := by
  constructor
  · intro line vol nw h
    cases hm : findStatusMatch line with
    | none => simp [applyCustomChangesLine, hm] at h
    | some m =>
      obtain ⟨mask, first, path⟩ := m
      have hrepr : applyCustomChangesLine line vol nw =
          (if mask = "....".toList then LineAction.skipDots
           else if first = '-' then LineAction.deleteUnderNew (nw ++ '/' :: path)
           else LineAction.sync (trimPre path vol)) := by
        simp [applyCustomChangesLine, hm]
      rw [hrepr] at h
      by_cases hmask : mask = "....".toList
      · have h6 := findStatusMatch_mask_len hm
        rw [hmask] at h6
        simp at h6
      · rw [if_neg hmask] at h
        by_cases hfirst : first = '-'
        · rw [if_pos hfirst] at h
          exact absurd h (by simp)
        · rw [if_neg hfirst] at h
          exact absurd h (by simp)
  · decide

/-- Witness for C3's theorem: the unreachable-branch statement applied at the
concrete failing line. -/
theorem applyCustomChanges_skip_branch_dead_witness :
    applyCustomChangesLine "...... /etc/hosts".toList "/etc".toList "/new".toList ≠ .skipDots :=
  (applyCustomChanges_skip_branch_dead).1 _ _ _

/-- C4 counterexample: three successive installs for snapshot ids 1, 2, 3
(each reading the grubenv written by the previous run) end with
`entries=active 3 1 2` — the whole accumulated tail is reversed on every run —
not the claimed `entries=active 3 2 1`. -/
theorem grub_entries_counterexample :
    grubenvAfterInstalls ["3".toList, "2".toList, "1".toList] =
      some "entries=active 3 1 2".toList ∧
    grubenvAfterInstalls ["3".toList, "2".toList, "1".toList] ≠
      some "entries=active 3 2 1".toList := by decide

/-- C4 (amended): after every install the `entries` variable starts with
`active`, immediately followed by the NEW snapshot id, followed by the
previously stored non-default ids in REVERSE of their stored order; with no
previous grubenv the tail is just the new id; in particular upgrading to
snapshot 4 when the stored entries are exactly `active 3` yields
`entries=active 4 3`. -/
theorem grub_updateBootEntries_amended (prev id : Str) (hid : id ≠ defaultBootID) :
    updateBootEntriesVar (some prev) id =
      "entries=".toList ++ joinSpace (defaultBootID :: id :: (readActiveEntries prev).reverse)
    ∧ updateBootEntriesVar none id =
      "entries=".toList ++ joinSpace (defaultBootID :: [id])
    ∧ updateBootEntriesVar (some "entries=active 3".toList) "4".toList =
      "entries=active 4 3".toList := by
  refine ⟨?_, ?_, by decide⟩
  · simp [updateBootEntriesVar, hid]
  · simp [updateBootEntriesVar, hid]

/-- Witness for C4's amended theorem at the spec's own scenario (snapshot 4
over stored entries `active 3`). -/
theorem grub_updateBootEntries_amended_witness :
    updateBootEntriesVar (some "entries=active 3".toList) "4".toList =
      "entries=".toList ++
        joinSpace (defaultBootID :: "4".toList ::
          (readActiveEntries "entries=active 3".toList).reverse) :=
  (grub_updateBootEntries_amended "entries=active 3".toList "4".toList (by decide)).1

theorem mem_ite_singleton {α : Type} (c : Prop) [Decidable c] (a x : α) :
    (x ∈ (if c then [a] else [])) ↔ c ∧ x = a := by
  by_cases hc : c
  · simp [hc]
  · simp [hc]

theorem mem_volIte (fullSync : Bool) (vol : RWVolume) (x : Str) :
    (x ∈ (if vol.Snapshotted then [goJoin vol.Path snapshotsPath]
          else if fullSync = false then [vol.Path] else [])) ↔
      (vol.Snapshotted = true ∧ x = goJoin vol.Path snapshotsPath) ∨
      (vol.Snapshotted = false ∧ fullSync = false ∧ x = vol.Path) := by
  cases hv : vol.Snapshotted <;> cases hf : fullSync <;> simp [hv, hf]

theorem syncExcludes_inner (fullSync : Bool) (vols : List RWVolume) :
    ∀ acc : List Str,
      vols.foldl (fun ex vol =>
        if vol.Snapshotted then ex ++ [goJoin vol.Path snapshotsPath]
        else if fullSync = false then ex ++ [vol.Path] else ex) acc =
      acc ++ vols.flatMap (fun vol =>
        if vol.Snapshotted then [goJoin vol.Path snapshotsPath]
        else if fullSync = false then [vol.Path] else []) := by
  induction vols with
  | nil => intro acc; simp
  | cons v rest ih =>
    intro acc
    cases hv : v.Snapshotted <;> cases hf : fullSync <;>
      simp [hf] at ih <;>
      simp [hv, hf, ih, List.append_assoc]

theorem syncSnapshotExcludes_eq (partitions : List Partition) (fullSync : Bool) :
    syncSnapshotExcludes partitions fullSync =
      goJoin ['/'] snapshotsPath ::
        partitions.flatMap (fun part =>
          (if fullSync = false ∧ part.Role ≠ .system ∧ part.MountPoint ≠ [] then
            [part.MountPoint] else []) ++
          part.RWVolumes.flatMap (fun vol =>
            if vol.Snapshotted then [goJoin vol.Path snapshotsPath]
            else if fullSync = false then [vol.Path] else [])) := by
  unfold syncSnapshotExcludes
  suffices h : ∀ (ps : List Partition) (acc : List Str),
      ps.foldl
        (fun excludes part =>
          let excludes :=
            if fullSync = false ∧ part.Role ≠ .system ∧ part.MountPoint ≠ [] then
              excludes ++ [part.MountPoint]
            else excludes
          part.RWVolumes.foldl
            (fun ex vol =>
              if vol.Snapshotted then ex ++ [goJoin vol.Path snapshotsPath]
              else if fullSync = false then ex ++ [vol.Path] else ex)
            excludes)
        acc =
      acc ++ ps.flatMap (fun part =>
        (if fullSync = false ∧ part.Role ≠ .system ∧ part.MountPoint ≠ [] then
          [part.MountPoint] else []) ++
        part.RWVolumes.flatMap (fun vol =>
          if vol.Snapshotted then [goJoin vol.Path snapshotsPath]
          else if fullSync = false then [vol.Path] else [])) by
    simpa using h partitions [goJoin ['/'] snapshotsPath]
  intro ps
  induction ps with
  | nil => intro acc; simp
  | cons p rest ih =>
    intro acc
    simp only [List.foldl_cons, List.flatMap_cons]
    rw [syncExcludes_inner, ih]
    have hstep :
        (if fullSync = false ∧ p.Role ≠ PartRole.system ∧ p.MountPoint ≠ [] then
          acc ++ [p.MountPoint] else acc) =
        acc ++ (if fullSync = false ∧ p.Role ≠ PartRole.system ∧ p.MountPoint ≠ [] then
          [p.MountPoint] else []) := by
      split <;> simp
    rw [hstep]
    simp [List.append_assoc]

theorem deleteExcludes_inner (vols : List RWVolume) :
    ∀ acc : List Str,
      vols.foldl (fun ex vol => ex ++ [vol.Path]) acc =
        acc ++ vols.map (fun vol => vol.Path) := by
  induction vols with
  | nil => intro acc; simp
  | cons v rest ih => intro acc; simp [ih, List.append_assoc]

theorem syncSnapshotDeleteExcludes_eq (partitions : List Partition) :
    syncSnapshotDeleteExcludes partitions =
      goJoin ['/'] snapshotsPath ::
        partitions.flatMap (fun part =>
          (if part.Role ≠ .system ∧ part.MountPoint ≠ [] then [part.MountPoint] else []) ++
          part.RWVolumes.map (fun vol => vol.Path)) := by
  unfold syncSnapshotDeleteExcludes
  suffices h : ∀ (ps : List Partition) (acc : List Str),
      ps.foldl
        (fun excludes part =>
          let excludes :=
            if part.Role ≠ .system ∧ part.MountPoint ≠ [] then
              excludes ++ [part.MountPoint]
            else excludes
          part.RWVolumes.foldl (fun ex vol => ex ++ [vol.Path]) excludes)
        acc =
      acc ++ ps.flatMap (fun part =>
        (if part.Role ≠ .system ∧ part.MountPoint ≠ [] then [part.MountPoint] else []) ++
        part.RWVolumes.map (fun vol => vol.Path)) by
    simpa using h partitions [goJoin ['/'] snapshotsPath]
  intro ps
  induction ps with
  | nil => intro acc; simp
  | cons p rest ih =>
    intro acc
    simp only [List.foldl_cons, List.flatMap_cons]
    rw [deleteExcludes_inner, ih]
    have hstep :
        (if p.Role ≠ PartRole.system ∧ p.MountPoint ≠ [] then
          acc ++ [p.MountPoint] else acc) =
        acc ++ (if p.Role ≠ PartRole.system ∧ p.MountPoint ≠ [] then
          [p.MountPoint] else []) := by
      split <;> simp
    rw [hstep]
    simp [List.append_assoc]

/-- C5: for every partition list and transaction id, membership of the two
exclude lists `SyncImageContent` passes to the unpacker: the sync excludes are
`/.snapshots`, the `<vol>/.snapshots` of every snapshotted RW volume, and —
exactly when the transaction id is not 1 — the mount point of every non-system
partition with a mount point and the path of every non-snapshotted RW volume;
the delete excludes are always `/.snapshots`, every non-system mount point and
every RW volume path. -/
theorem syncImageContent_exclude_lists (partitions : List Partition) (txID : Nat) (x : Str) :
    (x ∈ syncSnapshotExcludes partitions (txID == 1) ↔
      x = "/.snapshots".toList ∨
      (∃ part ∈ partitions, ∃ vol ∈ part.RWVolumes,
        vol.Snapshotted = true ∧ x = goJoin vol.Path snapshotsPath) ∨
      (txID ≠ 1 ∧
        ((∃ part ∈ partitions,
            part.Role ≠ .system ∧ part.MountPoint ≠ [] ∧ x = part.MountPoint) ∨
         (∃ part ∈ partitions, ∃ vol ∈ part.RWVolumes,
            vol.Snapshotted = false ∧ x = vol.Path))))
    ∧ (x ∈ syncSnapshotDeleteExcludes partitions ↔
      x = "/.snapshots".toList ∨
      (∃ part ∈ partitions,
        part.Role ≠ .system ∧ part.MountPoint ≠ [] ∧ x = part.MountPoint) ∨
      (∃ part ∈ partitions, ∃ vol ∈ part.RWVolumes, x = vol.Path)) := by
  have hroot : goJoin ['/'] snapshotsPath = "/.snapshots".toList := by decide
  have hbeq : ((txID == 1) = false) ↔ txID ≠ 1 := by
    simp [Nat.beq_eq_true_eq]
  constructor
  · rw [syncSnapshotExcludes_eq, hroot]
    simp only [List.mem_cons, List.mem_flatMap, List.mem_append, mem_ite_singleton,
      mem_volIte]
    constructor
    · rintro (rfl | ⟨part, hp, (⟨⟨hfs, hrole, hmp⟩, rfl⟩ | ⟨vol, hv, (⟨hs, rfl⟩ | ⟨hs, hfs, rfl⟩)⟩)⟩)
      · exact Or.inl rfl
      · exact Or.inr (Or.inr ⟨hbeq.mp hfs, Or.inl ⟨part, hp, hrole, hmp, rfl⟩⟩)
      · exact Or.inr (Or.inl ⟨part, hp, vol, hv, hs, rfl⟩)
      · exact Or.inr (Or.inr ⟨hbeq.mp hfs, Or.inr ⟨part, hp, vol, hv, hs, rfl⟩⟩)
    · rintro (rfl | ⟨part, hp, vol, hv, hs, rfl⟩ | ⟨hid, ⟨part, hp, hrole, hmp, rfl⟩ | ⟨part, hp, vol, hv, hs, rfl⟩⟩)
      · exact Or.inl rfl
      · exact Or.inr ⟨part, hp, Or.inr ⟨vol, hv, Or.inl ⟨hs, rfl⟩⟩⟩
      · exact Or.inr ⟨part, hp, Or.inl ⟨⟨hbeq.mpr hid, hrole, hmp⟩, rfl⟩⟩
      · exact Or.inr ⟨part, hp, Or.inr ⟨vol, hv, Or.inr ⟨hs, hbeq.mpr hid, rfl⟩⟩⟩
  · rw [syncSnapshotDeleteExcludes_eq, hroot]
    simp only [List.mem_cons, List.mem_flatMap, List.mem_append, mem_ite_singleton,
      List.mem_map]
    constructor
    · rintro (rfl | ⟨part, hp, (⟨⟨hrole, hmp⟩, rfl⟩ | ⟨vol, hv, rfl⟩)⟩)
      · exact Or.inl rfl
      · exact Or.inr (Or.inl ⟨part, hp, hrole, hmp, rfl⟩)
      · exact Or.inr (Or.inr ⟨part, hp, vol, hv, rfl⟩)
    · rintro (rfl | ⟨part, hp, hrole, hmp, rfl⟩ | ⟨part, hp, vol, hv, rfl⟩)
      · exact Or.inl rfl
      · exact Or.inr ⟨part, hp, Or.inl ⟨⟨hrole, hmp⟩, rfl⟩⟩
      · exact Or.inr ⟨part, hp, Or.inr ⟨vol, hv, rfl⟩⟩

theorem claimFstab_cons (p : Partition) (rest : List Partition) (txID : Nat) :
    claimFstab (p :: rest) txID =
      ((if p.MountPoint ≠ [] then [claimPartitionLine p] else []) ++
        p.RWVolumes.map (claimVolumeLine p txID) ++
        (if p.Role = .system then [claimSnapshotsLine p] else [])) ++
      claimFstab rest txID := by
  simp [claimFstab, List.append_assoc]

theorem createFstab_vols (part : Partition) (txID : Nat) (vols : List RWVolume) :
    ∀ acc : List FstabLine,
      vols.foldl
        (fun ls vol =>
          let subVol :=
            if vol.Snapshotted then goJoin (goJoin topSubVol (snapshotPath txID)) vol.Path
            else goJoin topSubVol vol.Path
          ls ++ [{ Device := "UUID=".toList ++ part.UUID,
                   MountPoint := vol.Path,
                   Options := vol.MountOpts ++ ["subvol=".toList ++ subVol],
                   FileSystem := part.FileSystem }]) acc
      = acc ++ vols.map (claimVolumeLine part txID) := by
  induction vols with
  | nil => intro acc; simp
  | cons v rest ih =>
    intro acc
    simp only [List.foldl_cons, List.map_cons]
    rw [ih]
    simp [claimVolumeLine, List.append_assoc]

/-- C6: on a fresh system (`no fstab exists`) the fstab created for
transaction id `n` is, per partition: one `UUID=` line per mount point with
`ro` prepended and fsck order 1 for the system partition and fsck order 2
otherwise (empty option lists collapsing to `defaults`); one line per RW
volume whose mount point is the volume path with the option
`subvol=@/.snapshots/<n>/snapshot/<vol>` when snapshotted and `subvol=@/<vol>`
otherwise; and one `/.snapshots` line with option `subvol=@/.snapshots` for
the system partition. -/
theorem createFstab_matches_claim (partitions : List Partition) (txID : Nat) :
    createFstab partitions txID = claimFstab partitions txID := by
  unfold createFstab
  suffices h : ∀ (ps : List Partition) (acc : List FstabLine),
      ps.foldl
        (fun fstabLines part =>
          let fstabLines :=
            if part.MountPoint ≠ [] then
              let opts := part.MountOpts
              let opts := if part.Role = .system then "ro".toList :: opts else opts
              let fsck : Nat := if part.Role = .system then 1 else 2
              let opts := if opts = [] then ["defaults".toList] else opts
              fstabLines ++ [{ Device := "UUID=".toList ++ part.UUID,
                               MountPoint := part.MountPoint,
                               Options := opts,
                               FileSystem := part.FileSystem,
                               FsckOrder := fsck }]
            else fstabLines
          let fstabLines := part.RWVolumes.foldl
            (fun ls vol =>
              let subVol :=
                if vol.Snapshotted then goJoin (goJoin topSubVol (snapshotPath txID)) vol.Path
                else goJoin topSubVol vol.Path
              ls ++ [{ Device := "UUID=".toList ++ part.UUID,
                       MountPoint := vol.Path,
                       Options := vol.MountOpts ++ ["subvol=".toList ++ subVol],
                       FileSystem := part.FileSystem }])
            fstabLines
          if part.Role = .system then
            fstabLines ++ [{ Device := "UUID=".toList ++ part.UUID,
                             MountPoint := goJoin ['/'] snapshotsPath,
                             Options := ["subvol=".toList ++ goJoin topSubVol snapshotsPath],
                             FileSystem := part.FileSystem }]
          else fstabLines)
        acc = acc ++ claimFstab ps txID by
    simpa using h partitions []
  intro ps
  induction ps with
  | nil => intro acc; simp [claimFstab]
  | cons p rest ih =>
    intro acc
    simp only [List.foldl_cons]
    rw [claimFstab_cons]
    rw [createFstab_vols, ih]
    by_cases hsys : p.Role = PartRole.system
    · by_cases hmp : p.MountPoint ≠ []
      · simp [hsys, hmp, claimPartitionLine, claimSnapshotsLine, List.append_assoc]
      · simp [hsys, hmp, claimPartitionLine, claimSnapshotsLine, List.append_assoc]
    · by_cases hmp : p.MountPoint ≠ []
      · by_cases hopts : p.MountOpts = []
        · simp [hsys, hmp, hopts, claimPartitionLine, List.append_assoc]
        · simp [hsys, hmp, hopts, claimPartitionLine, List.append_assoc]
      · simp [hsys, hmp, claimPartitionLine, List.append_assoc]

/-- C7: with the engine's context not cancelled, each upgrade-helper operation
(`SyncImageContent`, `Merge`, `UpdateFstab`, `Lock`) on a transaction whose
status is not `started` returns the transaction-state error and performs no
external action (no unpack, no snapper call, no fstab write, no permission
change); and on a `started` transaction no operation ever returns the
transaction-state error. -/
theorem upgrade_ops_require_started (env : HelperEnv) (partitions : List Partition)
    (trans : Transaction) (hc : env.ctxCancelled = false) :
    (trans.status ≠ .started →
      SyncImageContent env partitions trans = (.error (.txState trans.ID), []) ∧
      MergeOp env trans = (.error (.txState trans.ID), []) ∧
      UpdateFstab env partitions trans = (.error (.txState trans.ID), []) ∧
      Lock env trans = (.error (.txState trans.ID), []))
    ∧ (trans.status = .started →
      (∀ i, (SyncImageContent env partitions trans).1 ≠ .error (.txState i)) ∧
      (∀ i, (MergeOp env trans).1 ≠ .error (.txState i)) ∧
      (∀ i, (UpdateFstab env partitions trans).1 ≠ .error (.txState i)) ∧
      (∀ i, (Lock env trans).1 ≠ .error (.txState i))) := by
  constructor
  · intro h
    refine ⟨?_, ?_, ?_, ?_⟩ <;>
      simp [SyncImageContent, MergeOp, UpdateFstab, Lock, h, checkCancelled, hc]
  · intro h
    refine ⟨?_, ?_, ?_, ?_⟩ <;> intro i
    · cases hn : env.newUnpackerErr <;> cases hu : env.unpackErr <;>
        simp [SyncImageContent, h, hn, hu, checkCancelled, hc]
    · cases hs : env.configureSnapperErr <;> cases hm : env.mergeErr <;>
        simp [MergeOp, h, hs, hm, checkCancelled, hc]
    · cases hf : env.fstabExists <;> cases hu : env.updateFstabErr <;>
        cases hw : env.writeFstabErr <;>
        simp [UpdateFstab, h, hf, hu, hw, checkCancelled, hc]
    · cases hp : env.setPermissionsErr <;>
        simp [Lock, h, hp, checkCancelled, hc]

/-- Witness for C7: the guard theorem applied to an all-success environment
and a transaction still in state `init`. -/
theorem upgrade_ops_require_started_witness :
    SyncImageContent helperEnvOk [] ⟨1, "/p".toList, .init⟩ =
      (.error (.txState 1), []) ∧
    MergeOp helperEnvOk ⟨1, "/p".toList, .init⟩ = (.error (.txState 1), []) ∧
    UpdateFstab helperEnvOk [] ⟨1, "/p".toList, .init⟩ = (.error (.txState 1), []) ∧
    Lock helperEnvOk ⟨1, "/p".toList, .init⟩ = (.error (.txState 1), []) :=
  (upgrade_ops_require_started helperEnvOk [] ⟨1, "/p".toList, .init⟩ rfl).1 (by decide)

theorem buildOptions_linux_ok (fs label uuid dev : Str) (customOpts : List Str)
    (hlin : linuxFSMatch fs = true) (hl : label ≠ []) (hu : uuid ≠ [])
    (hok : uuidParseOk uuid = true) :
    buildOptions fs label uuid customOpts dev =
      .ok (["-L".toList, label] ++
        (if fs = "xfs".toList then ["-m".toList, "uuid=".toList ++ uuid]
         else ["-U".toList, uuid]) ++ customOpts ++
        (if fs = "btrfs".toList then ["-f".toList] else []) ++ [dev]) := by
  simp [buildOptions, hlin, hl, hu, hok, List.append_assoc]

theorem buildOptions_fat_ok (fs label uuid dev : Str) (customOpts : List Str)
    (hlin : linuxFSMatch fs = false) (hfat : fatFSMatch fs = true) (hl : label ≠ [])
    (hu : uuid ≠ []) (hok : uuidParseOk uuid = true) :
    buildOptions fs label uuid customOpts dev =
      .ok (["-n".toList, label, "-i".toList, uuid.takeWhile (· ≠ '-')] ++
        customOpts ++ [dev]) := by
  simp [buildOptions, hlin, hfat, hl, hu, hok, List.append_assoc]

/-- C8 counterexample: (a) for xfs with a valid canonical UUID the builder
emits `-m uuid=<uuid>`, not the claimed `-U <uuid>`; (b) the 32-digit plain
hex string is NOT a canonical UUID yet is accepted rather than rejected,
refuting "rejects any provided UUID that does not parse as a canonical UUID". -/
theorem mkfs_buildOptions_counterexample :
    buildOptions "xfs".toList "LBL".toList "123e4567-e89b-12d3-a456-426614174000".toList []
        "/dev/sda1".toList =
      .ok ["-L".toList, "LBL".toList, "-m".toList,
        "uuid=123e4567-e89b-12d3-a456-426614174000".toList, "/dev/sda1".toList] ∧
    (∀ ok, buildOptions "xfs".toList "LBL".toList
        "123e4567-e89b-12d3-a456-426614174000".toList [] "/dev/sda1".toList = .ok ok →
      ¬ "-U".toList ∈ ok) ∧
    buildOptions "ext4".toList "LBL".toList
        "0123456789abcdef0123456789abcdef".toList [] "/dev/sda1".toList =
      .ok ["-L".toList, "LBL".toList, "-U".toList,
        "0123456789abcdef0123456789abcdef".toList, "/dev/sda1".toList] := by
  refine ⟨rfl, ?_, rfl⟩
  intro ok hok
  have heq : (Except.ok ok : Except Str (List Str)) =
      .ok ["-L".toList, "LBL".toList, "-m".toList,
        "uuid=123e4567-e89b-12d3-a456-426614174000".toList, "/dev/sda1".toList] :=
    hok.symm.trans rfl
  rw [Except.ok.inj heq]
  decide

/-- C8 (amended): for every supported filesystem, non-empty label and provided
UUID that `uuid.Parse` accepts, `buildOptions` yields `-L <label>` (`-n` for
FAT) and the UUID flag — `-U <uuid>` for ext*/btrfs, `-m uuid=<uuid>` for xfs,
`-i <first hyphen group>` for FAT — appends `-f` exactly for btrfs and ends
with the device; a provided UUID rejected by `uuid.Parse` (which also accepts
braced, urn-prefixed and 32-digit hex forms besides the canonical one) is an
error, and a filesystem matching neither family is an error. -/
theorem mkfs_buildOptions_amended (fs label uuid dev : Str) (customOpts : List Str) :
    (fs ∈ supportedFilesystems → label ≠ [] → uuid ≠ [] → uuidParseOk uuid = true →
      buildOptions fs label uuid customOpts dev =
        .ok (claimMkfsOpts fs label uuid customOpts dev))
    ∧ (uuid ≠ [] → uuidParseOk uuid = false →
      ∃ e, buildOptions fs label uuid customOpts dev = .error e)
    ∧ (linuxFSMatch fs = false → fatFSMatch fs = false →
      ∃ e, buildOptions fs label uuid customOpts dev = .error e) := by
  refine ⟨?_, ?_, ?_⟩
  · intro hfs hl hu hok
    have hfs5 : fs = "btrfs".toList ∨ fs = "xfs".toList ∨ fs = "ext2".toList ∨
        fs = "ext4".toList ∨ fs = "vfat".toList := by
      simpa [supportedFilesystems] using hfs
    rcases hfs5 with rfl | rfl | rfl | rfl | rfl
    · rw [buildOptions_linux_ok _ _ _ _ _ (by decide) hl hu hok,
        if_neg (by decide : ¬("btrfs".toList = "xfs".toList)),
        if_pos (rfl : "btrfs".toList = "btrfs".toList)]
      unfold claimMkfsOpts
      rw [if_neg (by decide : ¬("btrfs".toList = "vfat".toList)),
        if_neg (by decide : ¬("btrfs".toList = "xfs".toList)),
        if_pos (rfl : "btrfs".toList = "btrfs".toList)]
      simp [List.append_assoc]
    · rw [buildOptions_linux_ok _ _ _ _ _ (by decide) hl hu hok,
        if_pos (rfl : "xfs".toList = "xfs".toList),
        if_neg (by decide : ¬("xfs".toList = "btrfs".toList))]
      unfold claimMkfsOpts
      rw [if_neg (by decide : ¬("xfs".toList = "vfat".toList)),
        if_pos (rfl : "xfs".toList = "xfs".toList)]
      simp [List.append_assoc]
    · rw [buildOptions_linux_ok _ _ _ _ _ (by decide) hl hu hok,
        if_neg (by decide : ¬("ext2".toList = "xfs".toList)),
        if_neg (by decide : ¬("ext2".toList = "btrfs".toList))]
      unfold claimMkfsOpts
      rw [if_neg (by decide : ¬("ext2".toList = "vfat".toList)),
        if_neg (by decide : ¬("ext2".toList = "xfs".toList)),
        if_neg (by decide : ¬("ext2".toList = "btrfs".toList))]
      simp [List.append_assoc]
    · rw [buildOptions_linux_ok _ _ _ _ _ (by decide) hl hu hok,
        if_neg (by decide : ¬("ext4".toList = "xfs".toList)),
        if_neg (by decide : ¬("ext4".toList = "btrfs".toList))]
      unfold claimMkfsOpts
      rw [if_neg (by decide : ¬("ext4".toList = "vfat".toList)),
        if_neg (by decide : ¬("ext4".toList = "xfs".toList)),
        if_neg (by decide : ¬("ext4".toList = "btrfs".toList))]
      simp [List.append_assoc]
    · rw [buildOptions_fat_ok _ _ _ _ _ (by decide) (by decide) hl hu hok]
      unfold claimMkfsOpts
      rw [if_pos (rfl : "vfat".toList = "vfat".toList)]
  · intro hu hbad
    exact ⟨"provided UUID is not valid: ".toList ++ uuid,
      by simp [buildOptions, hu, hbad]⟩
  · intro hlin hfat
    by_cases hbad : uuid ≠ [] ∧ uuidParseOk uuid = false
    · exact ⟨"provided UUID is not valid: ".toList ++ uuid,
        by simp [buildOptions, hbad]⟩
    · exact ⟨"unsupported filesystem: ".toList ++ fs,
        by simp [buildOptions, hbad, hlin, hfat]⟩

/-- Witness for C8's amended theorem: btrfs with a canonical UUID. -/
theorem mkfs_buildOptions_amended_witness :
    buildOptions "btrfs".toList "SYSTEM".toList
        "123e4567-e89b-12d3-a456-426614174000".toList [] "/dev/sda2".toList =
      .ok (claimMkfsOpts "btrfs".toList "SYSTEM".toList
        "123e4567-e89b-12d3-a456-426614174000".toList [] "/dev/sda2".toList) :=
  (mkfs_buildOptions_amended "btrfs".toList "SYSTEM".toList
      "123e4567-e89b-12d3-a456-426614174000".toList "/dev/sda2".toList []).1
    (by decide) (by decide) (by decide) (by decide)

theorem closeLoop_spec (env : MountEnv) (l : List Str) :
    closeLoop env l = (l.filter env.unmountFails, l.map MountAction.unmount) := by
  induction l with
  | nil => simp [closeLoop]
  | cons m rest ih =>
    cases hm : env.unmountFails m <;> simp [closeLoop, hm, ih, List.filter_cons]

theorem prepareLoop_spec (env : MountEnv) (pending : List (Str × Str)) :
    ∀ active : List Str,
      (prepareLoop env pending active).2.1 =
        active ++ mountTargets (prepareLoop env pending active).2.2 ∧
      unmountTargets (prepareLoop env pending active).2.2 = [] := by
  induction pending with
  | nil => intro active; simp [prepareLoop, mountTargets, unmountTargets]
  | cons e rest ih =>
    intro active
    obtain ⟨src, mp⟩ := e
    by_cases hk : env.mkdirFails mp
    · simp [prepareLoop, hk, mountTargets, unmountTargets]
    · by_cases hm : env.mountFails mp
      · simp [prepareLoop, hk, hm, mountTargets, unmountTargets]
      · have h := ih (active ++ [mp])
        simp only [prepareLoop, hk, hm, if_neg, if_false, Bool.false_eq_true] at h ⊢
        simp [mountTargets, unmountTargets, List.filterMap_cons] at h ⊢
        exact ⟨by rw [h.1], h.2⟩

theorem filter_false_of (p : Str → Bool) (hok : ∀ m, p m = false) (l : List Str) :
    l.filter p = [] := by
  induction l with
  | nil => rfl
  | cons a rest ih => simp [List.filter_cons, hok, ih]

theorem unmountTargets_append (a b : List MountAction) :
    unmountTargets (a ++ b) = unmountTargets a ++ unmountTargets b := by
  simp [unmountTargets, List.filterMap_append]

theorem mountTargets_append (a b : List MountAction) :
    mountTargets (a ++ b) = mountTargets a ++ mountTargets b := by
  simp [mountTargets, List.filterMap_append]

theorem unmountTargets_map_unmount (l : List Str) :
    unmountTargets (MountAction.syncCall :: l.map MountAction.unmount) = l := by
  induction l with
  | nil => rfl
  | cons a rest ih =>
    simp only [unmountTargets, List.filterMap_cons, List.map_cons] at ih ⊢
    simpa using ih

theorem mountTargets_map_unmount (l : List Str) :
    mountTargets (MountAction.syncCall :: l.map MountAction.unmount) = [] := by
  induction l with
  | nil => rfl
  | cons a rest ih =>
    simp only [mountTargets, List.filterMap_cons, List.map_cons] at ih ⊢
    simp

theorem prepareC_ok (st : ChrootState) (env : MountEnv) (active : List Str)
    (acts : List MountAction) (hact : st.activeMounts = [])
    (hp : prepareLoop env (prepareEntries st) [] = (none, active, acts)) :
    prepareC st env = (none, { st with activeMounts := active }, acts) := by
  unfold prepareC
  rw [if_neg (by simp [hact]), hp]

theorem prepareC_err (st : ChrootState) (env : MountEnv) (e2 : ChrootErr)
    (active : List Str) (acts : List MountAction) (hact : st.activeMounts = [])
    (hp : prepareLoop env (prepareEntries st) [] = (some e2, active, acts)) :
    prepareC st env =
      (some e2, (closeC { st with activeMounts := active } env).2.1,
        acts ++ (closeC { st with activeMounts := active } env).2.2) := by
  unfold prepareC
  rw [if_neg (by simp [hact]), hp]

/-- C9: (1) `Close` retains exactly the failing mount points in the active
list (dropping the successfully unmounted ones) and its error enumerates
those failures — in particular with no unmount failures the active list ends
empty; (2) if a mount fails during `Prepare` on a fresh instance, every entry
mounted so far is unmounted before returning (with working unmounts the
active list ends empty and the unmount trace is the reverse of the mount
trace); (3) a successful `Prepare` followed by a fully successful `Close`
leaves zero active mounts. -/
theorem chroot_mount_bookkeeping (st : ChrootState) (env : MountEnv) :
    ((closeC st env).2.1.activeMounts = st.activeMounts.reverse.filter env.unmountFails ∧
      (closeC st env).1 =
        (if st.activeMounts.reverse.filter env.unmountFails = [] then none
         else some (.unmountFailures (st.activeMounts.reverse.filter env.unmountFails)))) ∧
    (st.activeMounts = [] → (∀ m, env.unmountFails m = false) →
      ∀ e, (prepareC st env).1 = some e →
        (prepareC st env).2.1.activeMounts = [] ∧
        unmountTargets (prepareC st env).2.2 =
          (mountTargets (prepareC st env).2.2).reverse) ∧
    ((prepareC st env).1 = none → (∀ m, env.unmountFails m = false) →
      (closeC (prepareC st env).2.1 env).2.1.activeMounts = []) := by
  have hclose : ∀ (s : ChrootState),
      (closeC s env).2.1.activeMounts = s.activeMounts.reverse.filter env.unmountFails ∧
      (closeC s env).1 =
        (if s.activeMounts.reverse.filter env.unmountFails = [] then none
         else some (.unmountFailures (s.activeMounts.reverse.filter env.unmountFails))) := by
    intro s
    unfold closeC
    rw [closeLoop_spec]
    constructor
    · rfl
    · by_cases h : s.activeMounts.reverse.filter env.unmountFails = [] <;> simp [h]
  refine ⟨hclose st, ?_, ?_⟩
  · intro hact hok e he
    cases hp : prepareLoop env (prepareEntries st) [] with
    | mk r rest2 =>
      obtain ⟨active, acts⟩ := rest2
      cases r with
      | none =>
        rw [prepareC_ok st env active acts hact hp] at he
        simp at he
      | some e2 =>
        have hPC := prepareC_err st env e2 active acts hact hp
        have hspec := prepareLoop_spec env (prepareEntries st) []
        rw [hp] at hspec
        simp only [List.nil_append] at hspec
        rw [hPC]
        constructor
        · rw [(hclose _).1]
          exact filter_false_of _ hok _
        · unfold closeC
          rw [closeLoop_spec]
          simp only
          rw [unmountTargets_append, mountTargets_append,
            unmountTargets_map_unmount, mountTargets_map_unmount, hspec.2]
          rw [← hspec.1]
          simp
  · intro hp2 hok
    cases hpl : prepareLoop env (prepareEntries st) [] with
    | mk r rest2 =>
      obtain ⟨active, acts⟩ := rest2
      by_cases hact : st.activeMounts = []
      · cases r with
        | some e2 =>
          rw [prepareC_err st env e2 active acts hact hpl] at hp2
          simp at hp2
        | none =>
          rw [prepareC_ok st env active acts hact hpl] at hp2 ⊢
          rw [(hclose _).1]
          exact filter_false_of _ hok _
      · have : prepareC st env = (some .alreadyActive, st, []) := by
          unfold prepareC
          rw [if_pos (by simpa using hact)]
        rw [this] at hp2
        simp at hp2

/-- Witness for C9: on a fresh `/some/root` chroot with a fully working
mounter, `Prepare` succeeds and `Close` empties the active-mount list. -/
theorem chroot_mount_bookkeeping_witness :
    (closeC (prepareC chrootFresh mountEnvOk).2.1 mountEnvOk).2.1.activeMounts = [] :=
  (chroot_mount_bookkeeping chrootFresh mountEnvOk).2.2 (by decide) (fun m => rfl)

theorem idxLoop_short {E : Type} (mrg : E → E → E) :
    ∀ (dst src : List (Option E)), src.length < dst.length →
      idxLoop mrg dst src = none := by
  intro dst
  induction dst with
  | nil => intro src h; exact absurd h (Nat.not_lt_zero _)
  | cons d ds ih =>
    intro src h
    cases src with
    | nil => rfl
    | cons s ss =>
      have hlt : ss.length < ds.length := by
        simpa using Nat.lt_of_succ_lt_succ h
      simp [idxLoop, ih ss hlt]

/-- C10: `mergePtrSliceIndex` is not total on shorter non-empty sources: the
`for i := range destSize` loop reads `srcSlice[i]` for every destination
index, so whenever the source slice is non-empty but shorter than the
destination slice the read runs past the end of the source (modelled as
`none`, the runtime `index out of range` panic), instead of merging the common
prefix and keeping the remaining destination entries. -/
theorem mergePtrSliceIndex_panics {E : Type} (dst src : List (Option E))
    (mrg : E → E → E) (h1 : 0 < src.length) (h2 : src.length < dst.length) :
    mergePtrSliceIndex dst src mrg = none := by
  cases src with
  | nil => simp at h1
  | cons s ss =>
    unfold mergePtrSliceIndex
    exact idxLoop_short mrg dst (s :: ss) h2

/-- Witness for C10: a two-disk destination merged with a one-disk source
panics. -/
theorem mergePtrSliceIndex_panics_witness :
    mergePtrSliceIndex
      [some ⟨"/dev/sda".toList⟩, some ⟨"/dev/sdb".toList⟩]
      [some (⟨"/dev/sdc".toList⟩ : DiskLite)] mergeDiskLite = none :=
  mergePtrSliceIndex_panics _ _ mergeDiskLite (by decide) (by decide)

theorem mem_mapInsert {E : Type} (m : List (Str × E)) (k : Str) (v : E) (p : Str × E)
    (hp : p ∈ mapInsert m k v) : p ∈ m ∨ p = (k, v) := by
  unfold mapInsert at hp
  by_cases h : m.any (fun q => q.1 = k)
  · rw [if_pos h] at hp
    obtain ⟨q, hq, hqe⟩ := List.mem_map.mp hp
    by_cases hqk : q.1 = k
    · right
      rw [← hqe]
      simp [hqk]
    · left
      rw [if_neg hqk] at hqe
      rw [← hqe]
      exact hq
  · rw [if_neg h] at hp
    rcases List.mem_append.mp hp with h1 | h2
    · exact Or.inl h1
    · simp at h2
      exact Or.inr h2

theorem mapGet_mem {E : Type} (m : List (Str × E)) (k : Str) (v : E)
    (h : mapGet m k = some v) : (k, v) ∈ m := by
  unfold mapGet at h
  cases hf : m.find? (fun q => q.1 = k) with
  | none => rw [hf] at h; simp at h
  | some q =>
    rw [hf] at h
    simp at h
    have hq := List.mem_of_find?_eq_some hf
    have hpred := List.find?_some hf
    simp at hpred
    have : (k, v) = q := by
      rw [← hpred, ← h]
    rw [this]
    exact hq

theorem mapDelete_sub {E : Type} (m : List (Str × E)) (k : Str) (p : Str × E)
    (hp : p ∈ mapDelete m k) : p ∈ m :=
  (List.mem_filter.mp hp).1

theorem destPass_snd_sub {E : Type} (key : E → Str) (mrg : E → E → E) :
    ∀ (dst : List (Option E)) (m : List (Str × E)) (p : Str × E),
      p ∈ (destPass key mrg dst m).2 → p ∈ m := by
  intro dst
  induction dst with
  | nil => intro m p hp; simpa [destPass] using hp
  | cons o rest ih =>
    intro m p hp
    cases o with
    | none => exact ih m p (by simpa [destPass] using hp)
    | some e =>
      by_cases hk : key e = []
      · exact ih m p (by simpa [destPass, hk] using hp)
      · cases hg : mapGet m (key e) with
        | some srcE =>
          have hp2 : p ∈ (destPass key mrg rest (mapDelete m (key e))).2 := by
            simpa [destPass, hk, hg] using hp
          exact mapDelete_sub m (key e) p (ih _ p hp2)
        | none => exact ih m p (by simpa [destPass, hk, hg] using hp)

theorem destPass_fst_labels {E : Type} (key : E → Str) (mrg : E → E → E)
    (hkey : ∀ d s, key s = key d → key (mrg d s) = key d) :
    ∀ (dst : List (Option E)) (m : List (Str × E)), (∀ p ∈ m, p.1 = key p.2) →
      ((destPass key mrg dst m).1).map (fun o => o.map key) =
        (dst.filterMap id).map (fun e => some (key e)) := by
  intro dst
  induction dst with
  | nil => intro m hm; simp [destPass]
  | cons o rest ih =>
    intro m hm
    cases o with
    | none => simpa [destPass] using ih m hm
    | some e =>
      by_cases hk : key e = []
      · simp [destPass, hk, ih m hm]
      · cases hg : mapGet m (key e) with
        | some srcE =>
          have hsrc : (key e, srcE) ∈ m := mapGet_mem m (key e) srcE hg
          have hkeq : key srcE = key e := (hm _ hsrc).symm
          have hmerged : key (mrg e srcE) = key e := hkey e srcE hkeq
          have hmd : ∀ p ∈ mapDelete m (key e), p.1 = key p.2 :=
            fun p hp => hm p (mapDelete_sub m (key e) p hp)
          simp [destPass, hk, hg, ih (mapDelete m (key e)) hmd, hmerged]
        | none => simp [destPass, hk, hg, ih m hm]

theorem mem_filterMap_id_cons {E : Type} (x : E) (o : Option E)
    (rest : List (Option E)) (hx : x ∈ rest.filterMap id) :
    x ∈ (o :: rest).filterMap id := by
  have h2 : some x ∈ rest := by
    obtain ⟨a, ha, hax⟩ := List.mem_filterMap.mp hx
    simp at hax
    rwa [hax] at ha
  cases o with
  | none => simpa [List.filterMap_cons] using hx
  | some e =>
    simp [List.filterMap_cons]
    exact Or.inr h2

theorem srcPass_fold_spec {E : Type} (key : E → Str) :
    ∀ (src : List (Option E)) (acc : List (Option E) × List (Str × E)) (p : Str × E),
      p ∈ (src.foldl
        (fun acc entry =>
          match entry with
          | none => acc
          | some e =>
            if key e = [] then (acc.1 ++ [some e], acc.2)
            else (acc.1, mapInsert acc.2 (key e) e)) acc).2 →
      (p.1 = key p.2 ∧ p.2 ∈ src.filterMap id) ∨ p ∈ acc.2 := by
  intro src
  induction src with
  | nil => intro acc p hp; exact Or.inr hp
  | cons o rest ih =>
    intro acc p hp
    rw [List.foldl_cons] at hp
    cases o with
    | none =>
      rcases ih _ p hp with h | h
      · exact Or.inl ⟨h.1, mem_filterMap_id_cons _ _ _ h.2⟩
      · exact Or.inr h
    | some e =>
      by_cases hk : key e = []
      · rcases ih _ p (by simpa [hk] using hp) with h | h
        · exact Or.inl ⟨h.1, mem_filterMap_id_cons _ _ _ h.2⟩
        · exact Or.inr h
      · rcases ih _ p (by simpa [hk] using hp) with h | h
        · exact Or.inl ⟨h.1, mem_filterMap_id_cons _ _ _ h.2⟩
        · rcases mem_mapInsert acc.2 (key e) e p h with h2 | h2
          · exact Or.inr h2
          · refine Or.inl ⟨by rw [h2], ?_⟩
            rw [h2]
            simp

theorem srcPass_snd_spec {E : Type} (key : E → Str) (src : List (Option E))
    (p : Str × E) (hp : p ∈ (srcPass key src).2) :
    p.1 = key p.2 ∧ p.2 ∈ src.filterMap id := by
  have h := srcPass_fold_spec key src ([], []) p (by unfold srcPass at hp; exact hp)
  rcases h with h | h
  · exact h
  · simp at h

/-- C1 (amended): partition merge is by label and the result is, in order,
the unlabeled src partitions, then the keyed src partitions whose label
matches no dst partition (added BEFORE the dst entries, not after them), then
the dst partitions in their original order with each label that also occurs
in src merged in place (when merging preserves matched labels). -/
theorem mergePtrSliceByKey_amended {E : Type} (dst src : List (Option E))
    (key : E → Str) (mrg : E → E → E)
    (hkey : ∀ d s, key s = key d → key (mrg d s) = key d) :
    mergePtrSliceByKey dst src key mrg =
      (srcPass key src).1 ++
        (destPass key mrg dst (srcPass key src).2).2.map (fun p => some p.2) ++
        (destPass key mrg dst (srcPass key src).2).1
    ∧ ((destPass key mrg dst (srcPass key src).2).1).map (fun o => o.map key) =
        (dst.filterMap id).map (fun e => some (key e))
    ∧ (∀ p ∈ (destPass key mrg dst (srcPass key src).2).2,
        p.1 = key p.2 ∧ p.2 ∈ src.filterMap id) := by
  refine ⟨rfl, ?_, ?_⟩
  · exact destPass_fst_labels key mrg hkey dst (srcPass key src).2
      (fun p hp => (srcPass_snd_spec key src p hp).1)
  · intro p hp
    exact srcPass_snd_spec key src p (destPass_snd_sub key mrg dst _ p hp)

/-- Witness for C1's amended theorem at the claim's own example
(`dst = [EFI, SYSTEM(1G)]`, `src = [SYSTEM(4G), NEW(2G)]`). -/
theorem mergePtrSliceByKey_amended_witness :
    mergePtrSliceByKey c1dst c1src (fun p => p.Label) mergePartitionLite =
      (srcPass (fun p => p.Label) c1src).1 ++
        (destPass (fun p => p.Label) mergePartitionLite c1dst
          (srcPass (fun p => p.Label) c1src).2).2.map (fun p => some p.2) ++
        (destPass (fun p => p.Label) mergePartitionLite c1dst
          (srcPass (fun p => p.Label) c1src).2).1 :=
  (mergePtrSliceByKey_amended c1dst c1src (fun p => p.Label) mergePartitionLite
    (by
      intro d s h
      unfold mergePartitionLite
      by_cases hs : s.Label = []
      · simp [hs, h]
      · simp [hs]
        exact h)).1

/-- C1 counterexample: for `dst` labeled `[EFI, SYSTEM(1G)]` and `src` labeled
`[SYSTEM(4G), NEW(2G)]`, the merge yields `[NEW(2G), EFI, SYSTEM(4G)]` — the
unmatched src partition `NEW` is placed BEFORE the dst partitions — not the
claimed `[EFI, SYSTEM(4G), NEW(2G)]`. -/
theorem mergePtrSliceByKey_counterexample :
    mergePtrSliceByKey c1dst c1src (fun p => p.Label) mergePartitionLite =
      [some ⟨"NEW".toList, 2048⟩, some ⟨"EFI".toList, 0⟩, some ⟨"SYSTEM".toList, 4096⟩] ∧
    mergePtrSliceByKey c1dst c1src (fun p => p.Label) mergePartitionLite ≠
      [some ⟨"EFI".toList, 0⟩, some ⟨"SYSTEM".toList, 4096⟩, some ⟨"NEW".toList, 2048⟩] := by
  decide
